import Mathlib

/-!
Shallow embedding of `src/main.py` (xeno-canto → S3 mirror).

The pipeline is modelled as pure functions over an explicit object-store
state together with an event trace.  Network effects (page fetches, the
asset download, uploads) are driven by oracles (`FetchOutcome`,
`RecordEnv`) so that every control path of the Python code is reachable.
Strings follow Python semantics: truthiness of a string is non-emptiness
of its character list, `str.endswith('/')` is a test on the last
character.
-/

namespace XC

/-- Python truthiness of a string (`if s:`): true iff non-empty. -/
def pyTruthy (s : String) : Bool := !s.data.isEmpty

/-- Python `s.endswith('/')`: the last character is `'/'`. -/
def endsWithSlash (s : String) : Bool := s.data.getLast? == some '/'

/-- Python `s.startswith(pre)`. -/
def pyStartsWith (s pre : String) : Bool := pre.data.isPrefixOf s.data

/-- Python `not x` for an optional string field of a record:
true when the field is absent (`None`) or the empty string. -/
def isBlank : Option String → Bool
  | none => true
  | some s => s.data.isEmpty

/-- One record of the metadata API (`recording` dict); only the fields the
pipeline reads (`id`, `file`, `file-name`) are modelled, `none` standing
for an absent key (Python `dict.get` returning `None`). -/
structure Record where
  id : Option String
  file : Option String
  fileName : Option String
deriving DecidableEq

/-- The embedded error object of an API payload (`data["error"]`). -/
structure ApiError where
  code : String
  message : String
deriving DecidableEq

/-- A decoded JSON payload of the metadata API.  `none` fields stand for
absent keys, defaulted by the code via `data.get(...)`. -/
structure Payload where
  numRecordings : Option Nat
  numPages : Option Nat
  recordings : List Record
  error : Option ApiError
deriving DecidableEq

/-- Outcome of one metadata page request (`requests.get` + `.json()`):
transport failure (`RequestException`), decode failure
(`JSONDecodeError`), or a decoded payload. -/
inductive FetchOutcome where
  | transportError
  | decodeError
  | ok (payload : Payload)
deriving DecidableEq

/-- Outcome of the asset download `requests.get(file_url, stream=True)`
followed by `raise_for_status()`: the request itself fails (no response
object), the response is non-2xx (`raise_for_status` raises after a
response was obtained), or success with the declared `Content-Type`. -/
inductive DownloadOutcome where
  | noResponse
  | badStatus
  | success (contentType : Option String)
deriving DecidableEq

/-- Outcome of an S3 upload call. -/
inductive UploadOutcome where
  | ok
  | err
deriving DecidableEq

/-- Per-record oracle for the effectful calls `download_and_upload_recording`
may issue: the metadata `put_object`, the asset download, and the asset
`upload_fileobj`. -/
structure RecordEnv where
  jsonUpload : UploadOutcome
  download : DownloadOutcome
  audioUpload : UploadOutcome
deriving DecidableEq

/-- Observable events of a run, in program order. -/
inductive Event where
  | wait
  | fetchPage (query : String) (page : Nat)
  | headObject (bucket key : String) (found : Bool)
  | putObject (bucket key : String) (contentType : Option String)
  | uploadFileobj (bucket key : String) (contentType : String)
  | getAsset (url : String)
  | responseObtained
  | responseClosed
  | pbarUpdate
  | summary (completed total : Nat)
deriving DecidableEq

/-- The destination store: the set of `(bucket, key)` pairs that hold an
object, as a list. -/
abbrev Store := List (String × String)

/-- `check_s3_file_exists` (src/main.py:56-66): `head_object` succeeds iff
the key is present; every probe error is reported as `False`. -/
def checkS3FileExists (store : Store) (bucket key : String) : Bool :=
  store.contains (bucket, key)

/-- Metadata key (src/main.py:83): `f"{prefix}{recording_id}.json"`,
a literal concatenation. -/
def jsonS3Key (pfx recordingId : String) : String :=
  pfx ++ recordingId ++ ".json"

/-- Asset key (src/main.py:93-97): `f"{prefix}{original_filename}"`,
replaced by `f"{prefix}/{original_filename}"` when the prefix is
non-empty and does not end in `'/'`, and by the bare filename when the
prefix is empty. -/
def audioS3Key (pfx originalFilename : String) : String :=
  if !endsWithSlash pfx && pyTruthy pfx then pfx ++ "/" ++ originalFilename
  else if !pyTruthy pfx then originalFilename
  else pfx ++ originalFilename

/-- Asset URL resolution (src/main.py:117-125): protocol-relative URLs get
`https:`, URLs starting with `http` are kept, anything else is completed
against the known host (prepending `/` when missing). -/
def resolveFileUrl (fileUrlRelative : String) : String :=
  if pyStartsWith fileUrlRelative "//" then "https:" ++ fileUrlRelative
  else if pyStartsWith fileUrlRelative "http" then fileUrlRelative
  else
    let fileUrl := if pyStartsWith fileUrlRelative "/" then fileUrlRelative
                   else "/" ++ fileUrlRelative
    "https://xeno-canto.org" ++ fileUrl

/-- The exception `download_and_upload_recording` propagates, by origin:
the `assert` on the id, the metadata upload, the asset download
(request failure or `raise_for_status`), or the asset upload. -/
inductive SyncError where
  | assertionError
  | jsonUploadError
  | downloadError
  | audioUploadError
deriving DecidableEq

/-- Result of `download_and_upload_recording`: the store afterwards, the
events issued, and the propagated exception if any (`none` = returned). -/
structure SyncResult where
  store : Store
  events : List Event
  error : Option SyncError
deriving DecidableEq

/-- `download_and_upload_recording` (src/main.py:69-155), for one record.
`pbar` tells whether a progress bar instance was passed. -/
def downloadAndUploadRecording (env : RecordEnv) (recording : Record)
    (store : Store) (bucket pfx : String) (pbar : Bool) : SyncResult :=
  let recordingId := recording.id.getD ""
  if !pyTruthy recordingId then
    { store := store, events := [], error := some .assertionError }
  else
  -- json_s3_key is computed at line 83, before the file/file-name guard
  let jsonKey := jsonS3Key pfx recordingId
  if isBlank recording.file || isBlank recording.fileName then
    -- line 89-90: early return, nothing checked, nothing uploaded
    { store := store, events := [], error := none }
  else
  let originalFilename := recording.fileName.getD ""
  let audioKey := audioS3Key pfx originalFilename
  let jsonExists := checkS3FileExists store bucket jsonKey
  let audioExists := checkS3FileExists store bucket audioKey
  let checkEvents := [Event.headObject bucket jsonKey jsonExists,
                      Event.headObject bucket audioKey audioExists]
  if jsonExists && audioExists then
    -- line 103-107: skip, but still advance the bar
    { store := store,
      events := checkEvents ++ (if pbar then [Event.pbarUpdate] else []),
      error := none }
  else
  -- line 110-112: metadata upload when missing
  let events1 := checkEvents ++
    (if !jsonExists then [Event.putObject bucket jsonKey (some "application/json")] else [])
  if !jsonExists && env.jsonUpload == UploadOutcome.err then
    { store := store, events := events1, error := some .jsonUploadError }
  else
  let store1 := if !jsonExists then (bucket, jsonKey) :: store else store
  if !audioExists then
    -- line 115-151: download then streamed upload
    let fileUrl := resolveFileUrl (recording.file.getD "")
    let events2 := events1 ++ [Event.wait, Event.getAsset fileUrl]
    match env.download with
    | .noResponse =>
        { store := store1, events := events2, error := some .downloadError }
    | .badStatus =>
        -- raise_for_status raises: the response was obtained but the
        -- finally that closes it belongs to the second try block only
        { store := store1, events := events2 ++ [Event.responseObtained],
          error := some .downloadError }
    | .success ct =>
        let contentType := ct.getD "application/octet-stream"
        match env.audioUpload with
        | .ok =>
            { store := (bucket, audioKey) :: store1,
              events := events2 ++ [Event.responseObtained,
                Event.uploadFileobj bucket audioKey contentType,
                Event.responseClosed] ++
                (if pbar then [Event.pbarUpdate] else []),
              error := none }
        | .err =>
            { store := store1,
              events := events2 ++ [Event.responseObtained,
                Event.uploadFileobj bucket audioKey contentType,
                Event.responseClosed],
              error := some .audioUploadError }
  else
    { store := store1,
      events := events1 ++ (if pbar then [Event.pbarUpdate] else []),
      error := none }

/-- The exception `fetch_and_process_pages` propagates. -/
inductive RunError where
  | fetchError (page : Nat)
  | decodeError (page : Nat)
  | apiError (code message : String)
  | syncError (e : SyncError)
deriving DecidableEq

/-- Result of the page loop / the whole run. -/
structure RunResult where
  store : Store
  events : List Event
  error : Option RunError
deriving DecidableEq

/-- The per-page record loop (src/main.py:236-239): each record is handed
to `download_and_upload_recording`; `processed` counts the records that
returned normally; the first exception aborts. -/
def processRecordings (renv : Record → RecordEnv) (recs : List Record)
    (store : Store) (bucket pfx : String) (processed : Nat) :
    Store × List Event × Nat × Option SyncError :=
  match recs with
  | [] => (store, [], processed, none)
  | r :: rest =>
    let res := downloadAndUploadRecording (renv r) r store bucket pfx true
    match res.error with
    | some e => (res.store, res.events, processed, some e)
    | none =>
      let next := processRecordings renv rest res.store bucket pfx (processed + 1)
      (next.1, res.events ++ next.2.1, next.2.2.1, next.2.2.2)

/-- The page walk (src/main.py:210-241) over an explicit list of page
numbers: wait, fetch, decode, check the embedded error object, process
the page's records, recurse. -/
def processPages (api : Nat → FetchOutcome) (renv : Record → RecordEnv)
    (query : String) (pages : List Nat) (store : Store) (bucket pfx : String)
    (processed : Nat) : Store × List Event × Nat × Option RunError :=
  match pages with
  | [] => (store, [], processed, none)
  | p :: rest =>
    let ev0 := [Event.wait, Event.fetchPage query p]
    match api p with
    | .transportError => (store, ev0, processed, some (.fetchError p))
    | .decodeError => (store, ev0, processed, some (.decodeError p))
    | .ok payload =>
      match payload.error with
      | some e => (store, ev0, processed, some (.apiError e.code e.message))
      | none =>
        let recsRes := processRecordings renv payload.recordings store bucket pfx processed
        match recsRes.2.2.2 with
        | some e => (recsRes.1, ev0 ++ recsRes.2.1, recsRes.2.2.1, some (.syncError e))
        | none =>
          let next := processPages api renv query rest recsRes.1 bucket pfx recsRes.2.2.1
          (next.1, ev0 ++ recsRes.2.1 ++ next.2.1, next.2.2.1, next.2.2.2)

/-- `fetch_and_process_pages` (src/main.py:158-250).  The initial probe of
page 1 (no preceding wait, no error-object check) learns
`numPages`/`numRecordings`; a zero count returns before the progress bar
exists; otherwise the progress bar is created, pages
`startPage … totalPages` are walked (`while current_page <= total_pages`),
and the `finally` block — reached on every path on which the bar exists —
reconciles the displayed count and prints the final summary. -/
def fetchAndProcessPages (api : Nat → FetchOutcome) (renv : Record → RecordEnv)
    (query : String) (store : Store) (bucket pfx : String)
    (startPage : Nat) : RunResult :=
  let ev0 := [Event.fetchPage query 1]
  match api 1 with
  | .transportError =>
      -- the progress bar does not exist yet: the finally prints nothing
      { store := store, events := ev0, error := some (.fetchError 1) }
  | .decodeError =>
      { store := store, events := ev0, error := some (.decodeError 1) }
  | .ok payload =>
    let totalPages := payload.numPages.getD 1
    let numRecordingsTotal := payload.numRecordings.getD 0
    if numRecordingsTotal = 0 then
      -- line 182-184: early return, bar never created, no summary
      { store := store, events := ev0, error := none }
    else
      let pages := List.range' startPage (totalPages + 1 - startPage)
      let walk := processPages api renv query pages store bucket pfx 0
      { store := walk.1,
        events := ev0 ++ walk.2.1 ++ [Event.summary walk.2.2.1 numRecordingsTotal],
        error := walk.2.2.2 }

/-! ### Trace predicates -/

/-- An upload: the metadata `put_object` or the streaming `upload_fileobj`. -/
def Event.isPut : Event → Bool
  | .putObject _ _ _ => true
  | .uploadFileobj _ _ _ => true
  | _ => false

/-- An existence probe that reported "absent". -/
def Event.isHeadMiss : Event → Bool
  | .headObject _ _ found => !found
  | _ => false

/-- An outbound network call subject to the rate-limit discipline:
a metadata page fetch or the asset download request. -/
def Event.isOutbound : Event → Bool
  | .fetchPage _ _ => true
  | .getAsset _ => true
  | _ => false

/-- The rate-limiting `time.sleep`. -/
def Event.isWait : Event → Bool
  | .wait => true
  | _ => false

/-- The final summary line. -/
def Event.isSummary : Event → Bool
  | .summary _ _ => true
  | _ => false

/-- A `pbar.update(1)` call. -/
def Event.isPbarUpdate : Event → Bool
  | .pbarUpdate => true
  | _ => false

/-- The metadata upload call (`put_object`). -/
def Event.isMetaPut : Event → Bool
  | .putObject _ _ _ => true
  | _ => false

/-- Any step of the asset transfer: the download request, obtaining the
response, the streaming upload, or closing the stream. -/
def Event.isAssetStep : Event → Bool
  | .getAsset _ => true
  | .responseObtained => true
  | .uploadFileobj _ _ _ => true
  | .responseClosed => true
  | _ => false

/-- The page number of a page-fetch event. -/
def Event.pageOf : Event → Option Nat
  | .fetchPage _ p => some p
  | _ => none

/-- The sequence of page numbers fetched during a run, in order. -/
def fetchedPages (evs : List Event) : List Nat := evs.filterMap Event.pageOf

/-- `chainWait prev evs`: scanning `evs` with `prev` as the immediately
preceding event, every outbound call is immediately preceded by a wait. -/
def chainWait : Event → List Event → Bool
  | _, [] => true
  | prev, e :: rest => (!e.isOutbound || prev.isWait) && chainWait e rest

/-- Every outbound call in the trace is immediately preceded by a wait
(in particular the very first event must not be outbound). -/
def waitDiscipline : List Event → Bool
  | [] => true
  | e :: rest => !e.isOutbound && chainWait e rest

/-- After the first asset-transfer step of the trace, no metadata upload
occurs: every metadata upload strictly precedes every asset step. -/
def metadataPrecedesAsset : List Event → Bool
  | [] => true
  | e :: rest =>
    if e.isAssetStep then rest.all (fun x => !x.isMetaPut)
    else metadataPrecedesAsset rest

/-- An event a fully-synchronized second run may emit: anything except an
upload or a failed existence probe. -/
def secondRunGood (e : Event) : Bool := !e.isPut && !e.isHeadMiss

/-- The last event of `xs`, or `p` when `xs` is empty. -/
def lastEvent (p : Event) : List Event → Event
  | [] => p
  | x :: xs => lastEvent x xs

/-- A record environment in which every network and storage call succeeds. -/
def okEnv : RecordEnv := ⟨.ok, .success none, .ok⟩

/-- Every record gets the all-success environment. -/
def allOk : Record → RecordEnv := fun _ => okEnv

/-- A record environment whose asset download returns a non-2xx response
(`raise_for_status` raises after the response is obtained). -/
def badStatusEnv : RecordEnv := ⟨.ok, .badStatus, .ok⟩

/-- A complete record: id, protocol-relative file URL, and filename. -/
def demoRecord : Record :=
  ⟨some "1", some "//xeno-canto.org/XC1.mp3", some "XC1.mp3"⟩

/-- A record with an absent `file` field. -/
def noFileRecord : Record := ⟨some "2", none, some "XC2.mp3"⟩

/-- A one-page API: one record, `numRecordings = 1`, `numPages = 1`. -/
def demoApi : Nat → FetchOutcome :=
  fun _ => .ok ⟨some 1, some 1, [demoRecord], none⟩

/-- An API that always returns a bare embedded-error payload
`{error: {code: "E1", message: "bad query"}}`. -/
def errorApi : Nat → FetchOutcome :=
  fun _ => .ok ⟨none, none, [], some ⟨"E1", "bad query"⟩⟩

/-- An API whose every request fails at the transport level. -/
def failApi : Nat → FetchOutcome := fun _ => .transportError

/-- An API that reports 2 recordings across 2 pages, serves one complete
record on page 1, and returns a bare embedded-error payload for every
other page. -/
def c4MidApi : Nat → FetchOutcome :=
  fun pg => if pg = 1 then .ok ⟨some 2, some 2, [demoRecord], none⟩
            else .ok ⟨none, none, [], some ⟨"E1", "bad query"⟩⟩

/-- The number of records a page's payload carries (0 when the fetch
does not decode to a payload). -/
def pageRecordCount (api : Nat → FetchOutcome) (pg : Nat) : Nat :=
  match api pg with
  | .ok payload => payload.recordings.length
  | _ => 0

/-- An API that reports 2 recordings across 2 pages and fails at the
transport level for every page other than page 1. -/
def c9Api : Nat → FetchOutcome :=
  fun pg => if pg = 1 then .ok ⟨some 2, some 2, [demoRecord], none⟩
            else .transportError

/-! ### Basic lemmas -/

theorem checkS3FileExists_iff (store : Store) (b k : String) :
    checkS3FileExists store b k = true ↔ (b, k) ∈ store := by
  simp [checkS3FileExists, List.contains_iff_exists_mem_beq]

theorem checkS3FileExists_false_iff (store : Store) (b k : String) :
    checkS3FileExists store b k = false ↔ (b, k) ∉ store := by
  rw [← checkS3FileExists_iff store b k]
  cases checkS3FileExists store b k <;> simp

/-- Exhaustive case analysis of `download_and_upload_recording`: every
control path of the source, with its discriminating facts and its full
result. `J`/`A` are the computed keys, `jE`/`aE` the probe results. -/
theorem sync_master (env : RecordEnv) (r : Record) (store : Store)
    (b pfx : String) (pb : Bool) (J A : String) (jE aE : Bool)
    (hJ : J = jsonS3Key pfx (r.id.getD ""))
    (hA : A = audioS3Key pfx (r.fileName.getD ""))
    (hjE : jE = checkS3FileExists store b J)
    (haE : aE = checkS3FileExists store b A) :
    (pyTruthy (r.id.getD "") = false ∧
      downloadAndUploadRecording env r store b pfx pb =
        ⟨store, [], some .assertionError⟩) ∨
    (pyTruthy (r.id.getD "") = true ∧ (isBlank r.file || isBlank r.fileName) = true ∧
      downloadAndUploadRecording env r store b pfx pb = ⟨store, [], none⟩) ∨
    (pyTruthy (r.id.getD "") = true ∧ (isBlank r.file || isBlank r.fileName) = false ∧
      jE = true ∧ aE = true ∧
      downloadAndUploadRecording env r store b pfx pb =
        ⟨store, [.headObject b J true, .headObject b A true] ++
          (if pb then [.pbarUpdate] else []), none⟩) ∨
    (pyTruthy (r.id.getD "") = true ∧ (isBlank r.file || isBlank r.fileName) = false ∧
      jE = false ∧ env.jsonUpload = .err ∧
      downloadAndUploadRecording env r store b pfx pb =
        ⟨store, [.headObject b J false, .headObject b A aE,
          .putObject b J (some "application/json")], some .jsonUploadError⟩) ∨
    (pyTruthy (r.id.getD "") = true ∧ (isBlank r.file || isBlank r.fileName) = false ∧
      jE = false ∧ env.jsonUpload = .ok ∧ aE = true ∧
      downloadAndUploadRecording env r store b pfx pb =
        ⟨(b, J) :: store, [.headObject b J false, .headObject b A true,
          .putObject b J (some "application/json")] ++
          (if pb then [.pbarUpdate] else []), none⟩) ∨
    (pyTruthy (r.id.getD "") = true ∧ (isBlank r.file || isBlank r.fileName) = false ∧
      jE = true ∧ aE = false ∧ env.download = .noResponse ∧
      downloadAndUploadRecording env r store b pfx pb =
        ⟨store, [.headObject b J true, .headObject b A false, .wait,
          .getAsset (resolveFileUrl (r.file.getD ""))], some .downloadError⟩) ∨
    (pyTruthy (r.id.getD "") = true ∧ (isBlank r.file || isBlank r.fileName) = false ∧
      jE = false ∧ env.jsonUpload = .ok ∧ aE = false ∧ env.download = .noResponse ∧
      downloadAndUploadRecording env r store b pfx pb =
        ⟨(b, J) :: store, [.headObject b J false, .headObject b A false,
          .putObject b J (some "application/json"), .wait,
          .getAsset (resolveFileUrl (r.file.getD ""))], some .downloadError⟩) ∨
    (pyTruthy (r.id.getD "") = true ∧ (isBlank r.file || isBlank r.fileName) = false ∧
      jE = true ∧ aE = false ∧ env.download = .badStatus ∧
      downloadAndUploadRecording env r store b pfx pb =
        ⟨store, [.headObject b J true, .headObject b A false, .wait,
          .getAsset (resolveFileUrl (r.file.getD "")), .responseObtained],
          some .downloadError⟩) ∨
    (pyTruthy (r.id.getD "") = true ∧ (isBlank r.file || isBlank r.fileName) = false ∧
      jE = false ∧ env.jsonUpload = .ok ∧ aE = false ∧ env.download = .badStatus ∧
      downloadAndUploadRecording env r store b pfx pb =
        ⟨(b, J) :: store, [.headObject b J false, .headObject b A false,
          .putObject b J (some "application/json"), .wait,
          .getAsset (resolveFileUrl (r.file.getD "")), .responseObtained],
          some .downloadError⟩) ∨
    (pyTruthy (r.id.getD "") = true ∧ (isBlank r.file || isBlank r.fileName) = false ∧
      jE = true ∧ aE = false ∧ (∃ ct, env.download = .success ct ∧
      env.audioUpload = .ok ∧
      downloadAndUploadRecording env r store b pfx pb =
        ⟨(b, A) :: store, [.headObject b J true, .headObject b A false, .wait,
          .getAsset (resolveFileUrl (r.file.getD "")), .responseObtained,
          .uploadFileobj b A (ct.getD "application/octet-stream"),
          .responseClosed] ++ (if pb then [.pbarUpdate] else []), none⟩)) ∨
    (pyTruthy (r.id.getD "") = true ∧ (isBlank r.file || isBlank r.fileName) = false ∧
      jE = false ∧ env.jsonUpload = .ok ∧ aE = false ∧ (∃ ct, env.download = .success ct ∧
      env.audioUpload = .ok ∧
      downloadAndUploadRecording env r store b pfx pb =
        ⟨(b, A) :: (b, J) :: store, [.headObject b J false, .headObject b A false,
          .putObject b J (some "application/json"), .wait,
          .getAsset (resolveFileUrl (r.file.getD "")), .responseObtained,
          .uploadFileobj b A (ct.getD "application/octet-stream"),
          .responseClosed] ++ (if pb then [.pbarUpdate] else []), none⟩)) ∨
    (pyTruthy (r.id.getD "") = true ∧ (isBlank r.file || isBlank r.fileName) = false ∧
      jE = true ∧ aE = false ∧ (∃ ct, env.download = .success ct ∧
      env.audioUpload = .err ∧
      downloadAndUploadRecording env r store b pfx pb =
        ⟨store, [.headObject b J true, .headObject b A false, .wait,
          .getAsset (resolveFileUrl (r.file.getD "")), .responseObtained,
          .uploadFileobj b A (ct.getD "application/octet-stream"),
          .responseClosed], some .audioUploadError⟩)) ∨
    (pyTruthy (r.id.getD "") = true ∧ (isBlank r.file || isBlank r.fileName) = false ∧
      jE = false ∧ env.jsonUpload = .ok ∧ aE = false ∧ (∃ ct, env.download = .success ct ∧
      env.audioUpload = .err ∧
      downloadAndUploadRecording env r store b pfx pb =
        ⟨(b, J) :: store, [.headObject b J false, .headObject b A false,
          .putObject b J (some "application/json"), .wait,
          .getAsset (resolveFileUrl (r.file.getD "")), .responseObtained,
          .uploadFileobj b A (ct.getD "application/octet-stream"),
          .responseClosed], some .audioUploadError⟩)) := by
  subst hJ hA hjE haE
  by_cases hid : pyTruthy (r.id.getD "") = true
  case neg =>
    rw [Bool.not_eq_true] at hid
    exact Or.inl ⟨hid, by simp [downloadAndUploadRecording, hid]⟩
  by_cases hbl : (isBlank r.file || isBlank r.fileName) = true
  case neg =>
    rw [Bool.not_eq_true] at hbl
    by_cases hj : checkS3FileExists store b (jsonS3Key pfx (r.id.getD "")) = true
    case pos =>
      by_cases ha : checkS3FileExists store b (audioS3Key pfx (r.fileName.getD "")) = true
      case pos =>
        refine Or.inr (Or.inr (Or.inl ⟨hid, hbl, hj, ha, ?_⟩))
        simp [downloadAndUploadRecording, hid, hbl, hj, ha]
      case neg =>
        rw [Bool.not_eq_true] at ha
        cases hdl : env.download with
        | noResponse =>
          refine Or.inr (Or.inr (Or.inr (Or.inr (Or.inr (Or.inl ⟨hid, hbl, hj, ha, rfl, ?_⟩)))))
          simp [downloadAndUploadRecording, hid, hbl, hj, ha, hdl]
        | badStatus =>
          refine Or.inr (Or.inr (Or.inr (Or.inr (Or.inr (Or.inr (Or.inr (Or.inl
            ⟨hid, hbl, hj, ha, rfl, ?_⟩)))))))
          simp [downloadAndUploadRecording, hid, hbl, hj, ha, hdl]
        | success ct =>
          cases hau : env.audioUpload with
          | ok =>
            refine Or.inr (Or.inr (Or.inr (Or.inr (Or.inr (Or.inr (Or.inr (Or.inr (Or.inr
              (Or.inl ⟨hid, hbl, hj, ha, ct, rfl, rfl, ?_⟩)))))))))
            simp [downloadAndUploadRecording, hid, hbl, hj, ha, hdl, hau]
          | err =>
            refine Or.inr (Or.inr (Or.inr (Or.inr (Or.inr (Or.inr (Or.inr (Or.inr (Or.inr
              (Or.inr (Or.inr (Or.inl ⟨hid, hbl, hj, ha, ct, rfl, rfl, ?_⟩)))))))))))
            simp [downloadAndUploadRecording, hid, hbl, hj, ha, hdl, hau]
    case neg =>
      rw [Bool.not_eq_true] at hj
      cases hup : env.jsonUpload with
      | err =>
        refine Or.inr (Or.inr (Or.inr (Or.inl ⟨hid, hbl, hj, rfl, ?_⟩)))
        simp [downloadAndUploadRecording, hid, hbl, hj, hup]
      | ok =>
        by_cases ha : checkS3FileExists store b (audioS3Key pfx (r.fileName.getD "")) = true
        case pos =>
          refine Or.inr (Or.inr (Or.inr (Or.inr (Or.inl ⟨hid, hbl, hj, rfl, ha, ?_⟩))))
          simp [downloadAndUploadRecording, hid, hbl, hj, hup, ha]
        case neg =>
          rw [Bool.not_eq_true] at ha
          cases hdl : env.download with
          | noResponse =>
            refine Or.inr (Or.inr (Or.inr (Or.inr (Or.inr (Or.inr (Or.inl
              ⟨hid, hbl, hj, rfl, ha, rfl, ?_⟩))))))
            simp [downloadAndUploadRecording, hid, hbl, hj, hup, ha, hdl]
          | badStatus =>
            refine Or.inr (Or.inr (Or.inr (Or.inr (Or.inr (Or.inr (Or.inr (Or.inr (Or.inl
              ⟨hid, hbl, hj, rfl, ha, rfl, ?_⟩))))))))
            simp [downloadAndUploadRecording, hid, hbl, hj, hup, ha, hdl]
          | success ct =>
            cases hau : env.audioUpload with
            | ok =>
              refine Or.inr (Or.inr (Or.inr (Or.inr (Or.inr (Or.inr (Or.inr (Or.inr (Or.inr
                (Or.inr (Or.inl ⟨hid, hbl, hj, rfl, ha, ct, rfl, rfl, ?_⟩))))))))))
              simp [downloadAndUploadRecording, hid, hbl, hj, hup, ha, hdl, hau]
            | err =>
              refine Or.inr (Or.inr (Or.inr (Or.inr (Or.inr (Or.inr (Or.inr (Or.inr (Or.inr
                (Or.inr (Or.inr (Or.inr ⟨hid, hbl, hj, rfl, ha, ct, rfl, rfl, ?_⟩)))))))))))
              simp [downloadAndUploadRecording, hid, hbl, hj, hup, ha, hdl, hau]
  case pos =>
    exact Or.inr (Or.inl ⟨hid, hbl, by simp [downloadAndUploadRecording, hid, hbl]⟩)

/-- The store only grows during one record synchronization. -/
theorem sync_store_mono (env : RecordEnv) (r : Record) (store : Store)
    (b pfx : String) (pb : Bool) :
    store ⊆ (downloadAndUploadRecording env r store b pfx pb).store := by
  intro x hx
  have h := sync_master env r store b pfx pb _ _ _ _ rfl rfl rfl rfl
  rcases h with ⟨-, h⟩|⟨-, -, h⟩|⟨-, -, -, -, h⟩|⟨-, -, -, -, h⟩|⟨-, -, -, -, -, h⟩|
    ⟨-, -, -, -, -, h⟩|⟨-, -, -, -, -, -, h⟩|⟨-, -, -, -, -, h⟩|⟨-, -, -, -, -, -, h⟩|
    ⟨-, -, -, -, ct, -, -, h⟩|⟨-, -, -, -, -, ct, -, -, h⟩|⟨-, -, -, -, ct, -, -, h⟩|
    ⟨-, -, -, -, -, ct, -, -, h⟩ <;>
  rw [h] <;> simp [List.mem_cons, hx]

/-- Facts available when `download_and_upload_recording` returns normally:
the id was non-empty, and either the record was skipped for a blank
`file`/`file-name`, or both destination keys are present afterwards. -/
theorem sync_ok_settles (env : RecordEnv) (r : Record) (store : Store)
    (b pfx : String) (pb : Bool)
    (hok : (downloadAndUploadRecording env r store b pfx pb).error = none) :
    pyTruthy (r.id.getD "") = true ∧
    ((isBlank r.file || isBlank r.fileName) = true ∨
      ((b, jsonS3Key pfx (r.id.getD "")) ∈
          (downloadAndUploadRecording env r store b pfx pb).store ∧
       (b, audioS3Key pfx (r.fileName.getD "")) ∈
          (downloadAndUploadRecording env r store b pfx pb).store)) := by
  have h := sync_master env r store b pfx pb _ _ _ _ rfl rfl rfl rfl
  rcases h with ⟨-, h⟩|⟨hid, hbl, h⟩|⟨hid, hbl, hj, ha, h⟩|⟨-, -, -, -, h⟩|
    ⟨hid, hbl, hj, -, ha, h⟩|⟨-, -, -, -, -, h⟩|⟨-, -, -, -, -, -, h⟩|
    ⟨-, -, -, -, -, h⟩|⟨-, -, -, -, -, -, h⟩|⟨hid, hbl, hj, ha, ct, -, -, h⟩|
    ⟨hid, hbl, hj, -, ha, ct, -, -, h⟩|⟨-, -, -, -, ct, -, -, h⟩|
    ⟨-, -, -, -, -, ct, -, -, h⟩ <;>
  rw [h] at hok ⊢ <;> simp_all [checkS3FileExists_iff, List.mem_cons]

/-- A record whose id is non-empty and which is already settled in the
store — blank `file`/`file-name`, or both keys present — synchronizes
without changing the store, without error, and emitting no upload and no
failed probe. -/
theorem sync_settled (env : RecordEnv) (r : Record) (store : Store)
    (b pfx : String) (pb : Bool)
    (hid : pyTruthy (r.id.getD "") = true)
    (hset : (isBlank r.file || isBlank r.fileName) = true ∨
      ((b, jsonS3Key pfx (r.id.getD "")) ∈ store ∧
       (b, audioS3Key pfx (r.fileName.getD "")) ∈ store)) :
    (downloadAndUploadRecording env r store b pfx pb).store = store ∧
    (downloadAndUploadRecording env r store b pfx pb).error = none ∧
    (downloadAndUploadRecording env r store b pfx pb).events.all secondRunGood = true := by
  have h := sync_master env r store b pfx pb _ _ _ _ rfl rfl rfl rfl
  rcases h with ⟨hid2, h⟩|⟨-, -, h⟩|⟨-, -, hj, ha, h⟩|⟨-, hbl, hj, -, h⟩|
    ⟨-, hbl, hj, -, ha, h⟩|⟨-, hbl, hj, ha, -, h⟩|⟨-, hbl, hj, -, ha, -, h⟩|
    ⟨-, hbl, hj, ha, -, h⟩|⟨-, hbl, hj, -, ha, -, h⟩|⟨-, hbl, hj, ha, ct, -, -, h⟩|
    ⟨-, hbl, hj, -, ha, ct, -, -, h⟩|⟨-, hbl, hj, ha, ct, -, -, h⟩|
    ⟨-, hbl, hj, -, ha, ct, -, -, h⟩ <;>
  rcases hset with hset|⟨hsJ, hsA⟩ <;> cases pb <;>
  simp_all [checkS3FileExists_iff, checkS3FileExists_false_iff, secondRunGood,
    Event.isPut, Event.isHeadMiss, List.mem_cons]

/-- One record synchronization never fetches a metadata page. -/
theorem sync_no_fetch (env : RecordEnv) (r : Record) (store : Store)
    (b pfx : String) (pb : Bool) :
    (downloadAndUploadRecording env r store b pfx pb).events.filterMap Event.pageOf = [] := by
  have h := sync_master env r store b pfx pb _ _ _ _ rfl rfl rfl rfl
  rcases h with ⟨-, h⟩|⟨-, -, h⟩|⟨-, -, -, -, h⟩|⟨-, -, -, -, h⟩|⟨-, -, -, -, -, h⟩|
    ⟨-, -, -, -, -, h⟩|⟨-, -, -, -, -, -, h⟩|⟨-, -, -, -, -, h⟩|⟨-, -, -, -, -, -, h⟩|
    ⟨-, -, -, -, ct, -, -, h⟩|⟨-, -, -, -, -, ct, -, -, h⟩|⟨-, -, -, -, ct, -, -, h⟩|
    ⟨-, -, -, -, -, ct, -, -, h⟩ <;>
  rw [h] <;> cases pb <;> simp [Event.pageOf]

/-- One record synchronization never prints the final summary. -/
theorem sync_no_summary (env : RecordEnv) (r : Record) (store : Store)
    (b pfx : String) (pb : Bool) :
    (downloadAndUploadRecording env r store b pfx pb).events.all
      (fun e => !e.isSummary) = true := by
  have h := sync_master env r store b pfx pb _ _ _ _ rfl rfl rfl rfl
  rcases h with ⟨-, h⟩|⟨-, -, h⟩|⟨-, -, -, -, h⟩|⟨-, -, -, -, h⟩|⟨-, -, -, -, -, h⟩|
    ⟨-, -, -, -, -, h⟩|⟨-, -, -, -, -, -, h⟩|⟨-, -, -, -, -, h⟩|⟨-, -, -, -, -, -, h⟩|
    ⟨-, -, -, -, ct, -, -, h⟩|⟨-, -, -, -, -, ct, -, -, h⟩|⟨-, -, -, -, ct, -, -, h⟩|
    ⟨-, -, -, -, -, ct, -, -, h⟩ <;>
  rw [h] <;> cases pb <;> simp [Event.isSummary]

/-- Whatever precedes it, the trace of one record synchronization keeps
the wait discipline: each of its outbound calls (here only the asset
download) is immediately preceded by a wait, and its first event is never
outbound. -/
theorem sync_chainAny (env : RecordEnv) (r : Record) (store : Store)
    (b pfx : String) (pb : Bool) (p : Event) :
    chainWait p (downloadAndUploadRecording env r store b pfx pb).events = true := by
  have h := sync_master env r store b pfx pb _ _ _ _ rfl rfl rfl rfl
  rcases h with ⟨-, h⟩|⟨-, -, h⟩|⟨-, -, -, -, h⟩|⟨-, -, -, -, h⟩|⟨-, -, -, -, -, h⟩|
    ⟨-, -, -, -, -, h⟩|⟨-, -, -, -, -, -, h⟩|⟨-, -, -, -, -, h⟩|⟨-, -, -, -, -, -, h⟩|
    ⟨-, -, -, -, ct, -, -, h⟩|⟨-, -, -, -, -, ct, -, -, h⟩|⟨-, -, -, -, ct, -, -, h⟩|
    ⟨-, -, -, -, -, ct, -, -, h⟩ <;>
  rw [h] <;> cases pb <;> simp [chainWait, Event.isOutbound, Event.isWait]

/-- Splitting the wait-discipline scan across an append. -/
theorem chainWait_append (p : Event) (xs ys : List Event) :
    chainWait p (xs ++ ys) = (chainWait p xs && chainWait (lastEvent p xs) ys) := by
  induction xs generalizing p with
  | nil => simp [chainWait, lastEvent]
  | cons x xs ih => simp [chainWait, lastEvent, ih, Bool.and_assoc]

/-- The record loop only grows the store. -/
theorem processRecordings_store_mono (renv : Record → RecordEnv)
    (recs : List Record) (store : Store) (b pfx : String) (n : Nat) :
    store ⊆ (processRecordings renv recs store b pfx n).1 := by
  induction recs generalizing store n with
  | nil => simp [processRecordings]
  | cons r rest ih =>
    cases hre : (downloadAndUploadRecording (renv r) r store b pfx true).error with
    | some e =>
      simpa [processRecordings, hre] using sync_store_mono (renv r) r store b pfx true
    | none =>
      simpa [processRecordings, hre] using
        (sync_store_mono (renv r) r store b pfx true).trans
          (ih (downloadAndUploadRecording (renv r) r store b pfx true).store (n + 1))

/-- After a record loop that returned normally, every record of the list
is settled in the final store: non-empty id, and blank asset fields or
both keys present. -/
theorem processRecordings_ok_settles (renv : Record → RecordEnv)
    (recs : List Record) (store : Store) (b pfx : String) (n : Nat)
    (hok : (processRecordings renv recs store b pfx n).2.2.2 = none) :
    ∀ r ∈ recs, pyTruthy (r.id.getD "") = true ∧
      ((isBlank r.file || isBlank r.fileName) = true ∨
        ((b, jsonS3Key pfx (r.id.getD "")) ∈ (processRecordings renv recs store b pfx n).1 ∧
         (b, audioS3Key pfx (r.fileName.getD "")) ∈ (processRecordings renv recs store b pfx n).1)) := by
  induction recs generalizing store n with
  | nil => simp
  | cons r rest ih =>
    cases hre : (downloadAndUploadRecording (renv r) r store b pfx true).error with
    | some e => simp [processRecordings, hre] at hok
    | none =>
      have hmono := processRecordings_store_mono renv rest
        (downloadAndUploadRecording (renv r) r store b pfx true).store b pfx (n + 1)
      have hok' : (processRecordings renv rest
          (downloadAndUploadRecording (renv r) r store b pfx true).store b pfx
          (n + 1)).2.2.2 = none := by
        simpa [processRecordings, hre] using hok
      intro r' hr'
      rcases List.mem_cons.mp hr' with rfl | hr'
      · have hfacts := sync_ok_settles (renv r') r' store b pfx true hre
        refine ⟨hfacts.1, ?_⟩
        rcases hfacts.2 with hbl | ⟨h1, h2⟩
        · exact Or.inl hbl
        · refine Or.inr ⟨?_, ?_⟩ <;> simp only [processRecordings, hre] <;>
            [exact hmono h1; exact hmono h2]
      · have := ih _ (n + 1) hok' r' hr'
        simpa [processRecordings, hre] using this

/-- A record loop over records that are all settled in the store leaves
the store unchanged, returns normally, and emits no upload and no failed
probe. -/
theorem processRecordings_settled (renv : Record → RecordEnv)
    (recs : List Record) (store : Store) (b pfx : String) (n : Nat)
    (hset : ∀ r ∈ recs, pyTruthy (r.id.getD "") = true ∧
      ((isBlank r.file || isBlank r.fileName) = true ∨
        ((b, jsonS3Key pfx (r.id.getD "")) ∈ store ∧
         (b, audioS3Key pfx (r.fileName.getD "")) ∈ store))) :
    (processRecordings renv recs store b pfx n).1 = store ∧
    (processRecordings renv recs store b pfx n).2.2.2 = none ∧
    (processRecordings renv recs store b pfx n).2.1.all secondRunGood = true := by
  induction recs generalizing n with
  | nil => simp [processRecordings]
  | cons r rest ih =>
    have hr := hset r (List.mem_cons_self r rest)
    have hs := sync_settled (renv r) r store b pfx true hr.1 hr.2
    have hrest := ih (n + 1) (fun r' hr' => hset r' (List.mem_cons_of_mem r hr'))
    simp [processRecordings, hs.1, hs.2.1, hs.2.2, hrest.1, hrest.2.1, hrest.2.2,
      List.all_append]

/-- The record loop never fetches a metadata page. -/
theorem processRecordings_no_fetch (renv : Record → RecordEnv)
    (recs : List Record) (store : Store) (b pfx : String) (n : Nat) :
    (processRecordings renv recs store b pfx n).2.1.filterMap Event.pageOf = [] := by
  induction recs generalizing store n with
  | nil => simp [processRecordings]
  | cons r rest ih =>
    cases hre : (downloadAndUploadRecording (renv r) r store b pfx true).error with
    | some e => simp [processRecordings, hre, sync_no_fetch]
    | none => simp [processRecordings, hre, List.filterMap_append, sync_no_fetch, ih]

/-- The record loop never prints the final summary. -/
theorem processRecordings_no_summary (renv : Record → RecordEnv)
    (recs : List Record) (store : Store) (b pfx : String) (n : Nat) :
    (processRecordings renv recs store b pfx n).2.1.all (fun e => !e.isSummary) = true := by
  induction recs generalizing store n with
  | nil => simp [processRecordings]
  | cons r rest ih =>
    cases hre : (downloadAndUploadRecording (renv r) r store b pfx true).error with
    | some e => simp [processRecordings, hre, sync_no_summary]
    | none => simp [processRecordings, hre, List.all_append, sync_no_summary, ih]

/-- The record loop keeps the wait discipline whatever precedes it, and
never starts with an outbound call. -/
theorem processRecordings_chainAny (renv : Record → RecordEnv)
    (recs : List Record) (store : Store) (b pfx : String) (n : Nat) (p : Event) :
    chainWait p (processRecordings renv recs store b pfx n).2.1 = true := by
  induction recs generalizing store n p with
  | nil => simp [processRecordings, chainWait]
  | cons r rest ih =>
    cases hre : (downloadAndUploadRecording (renv r) r store b pfx true).error with
    | some e => simp [processRecordings, hre, sync_chainAny]
    | none => simp [processRecordings, hre, chainWait_append, sync_chainAny, ih]

/-- The page walk only grows the store. -/
theorem processPages_store_mono (api : Nat → FetchOutcome) (renv : Record → RecordEnv)
    (query : String) (pages : List Nat) (store : Store) (b pfx : String) (n : Nat) :
    store ⊆ (processPages api renv query pages store b pfx n).1 := by
  induction pages generalizing store n with
  | nil => simp [processPages]
  | cons pg rest ih =>
    cases hap : api pg with
    | transportError => simp [processPages, hap]
    | decodeError => simp [processPages, hap]
    | ok payload =>
      cases hpe : payload.error with
      | some e => simp [processPages, hap, hpe]
      | none =>
        cases hrr : (processRecordings renv payload.recordings store b pfx n).2.2.2 with
        | some e =>
          simpa [processPages, hap, hpe, hrr] using
            processRecordings_store_mono renv payload.recordings store b pfx n
        | none =>
          simpa [processPages, hap, hpe, hrr] using
            (processRecordings_store_mono renv payload.recordings store b pfx n).trans
              (ih (processRecordings renv payload.recordings store b pfx n).1 _)

/-- After a page walk that returned normally, every walked page decoded
to an error-free payload all of whose records are settled in the final
store. -/
theorem processPages_ok_settles (api : Nat → FetchOutcome) (renv : Record → RecordEnv)
    (query : String) (pages : List Nat) (store : Store) (b pfx : String) (n : Nat)
    (hok : (processPages api renv query pages store b pfx n).2.2.2 = none) :
    ∀ pg ∈ pages, ∃ payload, api pg = .ok payload ∧ payload.error = none ∧
      ∀ r ∈ payload.recordings, pyTruthy (r.id.getD "") = true ∧
        ((isBlank r.file || isBlank r.fileName) = true ∨
          ((b, jsonS3Key pfx (r.id.getD "")) ∈
              (processPages api renv query pages store b pfx n).1 ∧
           (b, audioS3Key pfx (r.fileName.getD "")) ∈
              (processPages api renv query pages store b pfx n).1)) := by
  induction pages generalizing store n with
  | nil => simp
  | cons pg rest ih =>
    cases hap : api pg with
    | transportError => simp [processPages, hap] at hok
    | decodeError => simp [processPages, hap] at hok
    | ok payload =>
      cases hpe : payload.error with
      | some e => simp [processPages, hap, hpe] at hok
      | none =>
        cases hrr : (processRecordings renv payload.recordings store b pfx n).2.2.2 with
        | some e => simp [processPages, hap, hpe, hrr] at hok
        | none =>
          have hok' : (processPages api renv query rest
              (processRecordings renv payload.recordings store b pfx n).1 b pfx
              (processRecordings renv payload.recordings store b pfx n).2.2.1).2.2.2
                = none := by
            simpa [processPages, hap, hpe, hrr] using hok
          intro pg2 hpg2
          rcases List.mem_cons.mp hpg2 with rfl | hpg2
          · refine ⟨payload, hap, hpe, ?_⟩
            intro r hr
            have hfacts := processRecordings_ok_settles renv payload.recordings
              store b pfx n hrr r hr
            refine ⟨hfacts.1, ?_⟩
            rcases hfacts.2 with hbl | ⟨h1, h2⟩
            · exact Or.inl hbl
            · have hmono := processPages_store_mono api renv query rest
                (processRecordings renv payload.recordings store b pfx n).1 b pfx
                (processRecordings renv payload.recordings store b pfx n).2.2.1
              refine Or.inr ⟨?_, ?_⟩ <;> simp only [processPages, hap, hpe, hrr] <;>
                [exact hmono h1; exact hmono h2]
          · have := ih _ _ hok' pg2 hpg2
            simpa [processPages, hap, hpe, hrr] using this

/-- A page walk over pages whose payloads are error-free and whose
records are all settled in the store leaves the store unchanged, returns
normally, and emits no upload and no failed probe. -/
theorem processPages_settled (api : Nat → FetchOutcome) (renv : Record → RecordEnv)
    (query : String) (pages : List Nat) (store : Store) (b pfx : String) (n : Nat)
    (hset : ∀ pg ∈ pages, ∃ payload, api pg = .ok payload ∧ payload.error = none ∧
      ∀ r ∈ payload.recordings, pyTruthy (r.id.getD "") = true ∧
        ((isBlank r.file || isBlank r.fileName) = true ∨
          ((b, jsonS3Key pfx (r.id.getD "")) ∈ store ∧
           (b, audioS3Key pfx (r.fileName.getD "")) ∈ store))) :
    (processPages api renv query pages store b pfx n).1 = store ∧
    (processPages api renv query pages store b pfx n).2.2.2 = none ∧
    (processPages api renv query pages store b pfx n).2.1.all secondRunGood = true := by
  induction pages generalizing n with
  | nil => simp [processPages]
  | cons pg rest ih =>
    obtain ⟨payload, hap, hpe, hrecs⟩ := hset pg (List.mem_cons_self pg rest)
    have hpr := processRecordings_settled renv payload.recordings store b pfx n hrecs
    have hrest := ih (processRecordings renv payload.recordings store b pfx n).2.2.1
      (fun pg2 hpg2 => hset pg2 (List.mem_cons_of_mem pg hpg2))
    simp [processPages, hap, hpe, hpr.1, hpr.2.1, hpr.2.2, hrest.1, hrest.2.1,
      hrest.2.2, List.all_append, secondRunGood, Event.isPut, Event.isHeadMiss]

/-- The page walk never prints the final summary. -/
theorem processPages_no_summary (api : Nat → FetchOutcome) (renv : Record → RecordEnv)
    (query : String) (pages : List Nat) (store : Store) (b pfx : String) (n : Nat) :
    (processPages api renv query pages store b pfx n).2.1.all
      (fun e => !e.isSummary) = true := by
  induction pages generalizing store n with
  | nil => simp [processPages]
  | cons pg rest ih =>
    cases hap : api pg with
    | transportError => simp [processPages, hap, Event.isSummary]
    | decodeError => simp [processPages, hap, Event.isSummary]
    | ok payload =>
      cases hpe : payload.error with
      | some e => simp [processPages, hap, hpe, Event.isSummary]
      | none =>
        cases hrr : (processRecordings renv payload.recordings store b pfx n).2.2.2 with
        | some e =>
          simp only [processPages, hap, hpe, hrr, List.cons_append, List.nil_append,
            List.all_cons, List.all_append, Bool.and_eq_true]
          exact ⟨rfl, rfl, processRecordings_no_summary renv payload.recordings
            store b pfx n⟩
        | none =>
          simp only [processPages, hap, hpe, hrr, List.cons_append, List.nil_append,
            List.all_cons, List.all_append, Bool.and_eq_true]
          exact ⟨rfl, rfl, processRecordings_no_summary renv payload.recordings
            store b pfx n, ih _ _⟩

/-- The page walk keeps the wait discipline whatever precedes it: its
first event is a wait, each page fetch follows its wait immediately, and
the record traces in between keep the discipline. -/
theorem processPages_chainAny (api : Nat → FetchOutcome) (renv : Record → RecordEnv)
    (query : String) (pages : List Nat) (store : Store) (b pfx : String) (n : Nat)
    (p : Event) :
    chainWait p (processPages api renv query pages store b pfx n).2.1 = true := by
  induction pages generalizing store n p with
  | nil => simp [processPages, chainWait]
  | cons pg rest ih =>
    cases hap : api pg with
    | transportError => simp [processPages, hap, chainWait, Event.isOutbound, Event.isWait]
    | decodeError => simp [processPages, hap, chainWait, Event.isOutbound, Event.isWait]
    | ok payload =>
      cases hpe : payload.error with
      | some e => simp [processPages, hap, hpe, chainWait, Event.isOutbound, Event.isWait]
      | none =>
        cases hrr : (processRecordings renv payload.recordings store b pfx n).2.2.2 with
        | some e =>
          simp [processPages, hap, hpe, hrr, chainWait, chainWait_append,
            Event.isOutbound, Event.isWait, processRecordings_chainAny]
        | none =>
          simp [processPages, hap, hpe, hrr, chainWait, chainWait_append,
            Event.isOutbound, Event.isWait, processRecordings_chainAny, ih]

/-- A page walk that returned normally fetched exactly its page list, in
order. -/
theorem processPages_fetched (api : Nat → FetchOutcome) (renv : Record → RecordEnv)
    (query : String) (pages : List Nat) (store : Store) (b pfx : String) (n : Nat)
    (hok : (processPages api renv query pages store b pfx n).2.2.2 = none) :
    (processPages api renv query pages store b pfx n).2.1.filterMap Event.pageOf
      = pages := by
  induction pages generalizing store n with
  | nil => simp [processPages]
  | cons pg rest ih =>
    cases hap : api pg with
    | transportError => simp [processPages, hap] at hok
    | decodeError => simp [processPages, hap] at hok
    | ok payload =>
      cases hpe : payload.error with
      | some e => simp [processPages, hap, hpe] at hok
      | none =>
        cases hrr : (processRecordings renv payload.recordings store b pfx n).2.2.2 with
        | some e => simp [processPages, hap, hpe, hrr] at hok
        | none =>
          have hok' : (processPages api renv query rest
              (processRecordings renv payload.recordings store b pfx n).1 b pfx
              (processRecordings renv payload.recordings store b pfx n).2.2.1).2.2.2
                = none := by
            simpa [processPages, hap, hpe, hrr] using hok
          simp [processPages, hap, hpe, hrr, List.filterMap_append, Event.pageOf,
            processRecordings_no_fetch, ih _ _ hok']

/-- A record loop that returned normally incremented the processed
counter once per record of the list. -/
theorem processRecordings_count (renv : Record → RecordEnv)
    (recs : List Record) (store : Store) (b pfx : String) (n : Nat)
    (hok : (processRecordings renv recs store b pfx n).2.2.2 = none) :
    (processRecordings renv recs store b pfx n).2.2.1 = n + recs.length := by
  induction recs generalizing store n with
  | nil => simp [processRecordings]
  | cons r rest ih =>
    cases hre : (downloadAndUploadRecording (renv r) r store b pfx true).error with
    | some e => simp [processRecordings, hre] at hok
    | none =>
      have hok' : (processRecordings renv rest
          (downloadAndUploadRecording (renv r) r store b pfx true).store b pfx
          (n + 1)).2.2.2 = none := by
        simpa [processRecordings, hre] using hok
      have := ih _ (n + 1) hok'
      simp [processRecordings, hre, this]
      omega

/-- A page walk that returned normally processed exactly the records of
its pages: the final counter is the initial one plus the record counts of
every walked page. -/
theorem processPages_count (api : Nat → FetchOutcome) (renv : Record → RecordEnv)
    (query : String) (pages : List Nat) (store : Store) (b pfx : String) (n : Nat)
    (hok : (processPages api renv query pages store b pfx n).2.2.2 = none) :
    (processPages api renv query pages store b pfx n).2.2.1
      = n + (pages.map (pageRecordCount api)).sum := by
  induction pages generalizing store n with
  | nil => simp [processPages]
  | cons pg rest ih =>
    cases hap : api pg with
    | transportError => simp [processPages, hap] at hok
    | decodeError => simp [processPages, hap] at hok
    | ok payload =>
      cases hpe : payload.error with
      | some e => simp [processPages, hap, hpe] at hok
      | none =>
        cases hrr : (processRecordings renv payload.recordings store b pfx n).2.2.2 with
        | some e => simp [processPages, hap, hpe, hrr] at hok
        | none =>
          have hok' : (processPages api renv query rest
              (processRecordings renv payload.recordings store b pfx n).1 b pfx
              (processRecordings renv payload.recordings store b pfx n).2.2.1).2.2.2
                = none := by
            simpa [processPages, hap, hpe, hrr] using hok
          have hc := processRecordings_count renv payload.recordings store b pfx n hrr
          have hrest := ih _ _ hok'
          rw [hc] at hrest
          simp [processPages, hap, hpe, hrr, hc, hrest, pageRecordCount]
          omega

/-- Composition of the page walk: after a clean prefix of pages, walking
the concatenation is walking the prefix and continuing with the suffix
from the prefix's store and counter. -/
theorem processPages_append (api : Nat → FetchOutcome) (renv : Record → RecordEnv)
    (query : String) (xs ys : List Nat) (store : Store) (b pfx : String) (n : Nat)
    (hok : (processPages api renv query xs store b pfx n).2.2.2 = none) :
    processPages api renv query (xs ++ ys) store b pfx n =
      ((processPages api renv query ys (processPages api renv query xs store b pfx n).1
          b pfx (processPages api renv query xs store b pfx n).2.2.1).1,
       (processPages api renv query xs store b pfx n).2.1 ++
         (processPages api renv query ys (processPages api renv query xs store b pfx n).1
           b pfx (processPages api renv query xs store b pfx n).2.2.1).2.1,
       (processPages api renv query ys (processPages api renv query xs store b pfx n).1
         b pfx (processPages api renv query xs store b pfx n).2.2.1).2.2.1,
       (processPages api renv query ys (processPages api renv query xs store b pfx n).1
         b pfx (processPages api renv query xs store b pfx n).2.2.1).2.2.2) := by
  induction xs generalizing store n with
  | nil => simp [processPages]
  | cons pg rest ih =>
    cases hap : api pg with
    | transportError => simp [processPages, hap] at hok
    | decodeError => simp [processPages, hap] at hok
    | ok payload =>
      cases hpe : payload.error with
      | some e => simp [processPages, hap, hpe] at hok
      | none =>
        cases hrr : (processRecordings renv payload.recordings store b pfx n).2.2.2 with
        | some e => simp [processPages, hap, hpe, hrr] at hok
        | none =>
          have hok' : (processPages api renv query rest
              (processRecordings renv payload.recordings store b pfx n).1 b pfx
              (processRecordings renv payload.recordings store b pfx n).2.2.1).2.2.2
                = none := by
            simpa [processPages, hap, hpe, hrr] using hok
          simp [processPages, hap, hpe, hrr, ih _ _ hok', List.append_assoc]


/-! ### Claim theorems -/

/-- Claim C2 (counterexample): a record with an absent `file` field but a
present `file-name` and id, against an empty store, produces no events at
all — the metadata key's existence is never checked and the metadata JSON
is not uploaded although its key does not exist — contradicting the claim
that metadata is still processed. -/
theorem c2_counterexample :
    (downloadAndUploadRecording okEnv noFileRecord [] "b" "p/" true).events = [] ∧
    (downloadAndUploadRecording okEnv noFileRecord [] "b" "p/" true).store = [] ∧
    (downloadAndUploadRecording okEnv noFileRecord [] "b" "p/" true).error = none := by
  decide

/-- Claim C2 (amended): a record whose `file` or `file-name` is absent or
empty is skipped entirely: the synchronizer returns normally, leaves the
store unchanged, and emits no event — no existence check, no metadata
upload, no asset transfer, no progress advance. -/
theorem c2_blank_skips_record (env : RecordEnv) (r : Record) (store : Store)
    (b pfx : String) (pb : Bool)
    (hid : pyTruthy (r.id.getD "") = true)
    (hbl : (isBlank r.file || isBlank r.fileName) = true) :
    downloadAndUploadRecording env r store b pfx pb =
      { store := store, events := [], error := none } := by
  simp [downloadAndUploadRecording, hid, hbl]

/-- Witness for the amended C2 at a concrete record. -/
theorem c2_witness :
    pyTruthy (noFileRecord.id.getD "") = true ∧
    (isBlank noFileRecord.file || isBlank noFileRecord.fileName) = true ∧
    downloadAndUploadRecording okEnv noFileRecord [("b", "x")] "b" "p/" true =
      { store := [("b", "x")], events := [], error := none } :=
  ⟨by decide, by decide,
    c2_blank_skips_record okEnv noFileRecord [("b", "x")] "b" "p/" true
      (by decide) (by decide)⟩

/-- Claim C3 (counterexample): a record with an absent `file` field is
handled (the synchronizer returns normally) yet the progress bar is
advanced zero times, contradicting the exactly-once claim. -/
theorem c3_counterexample :
    (downloadAndUploadRecording okEnv noFileRecord [] "b" "p/" true).error = none ∧
    (downloadAndUploadRecording okEnv noFileRecord [] "b" "p/" true).events.countP
      Event.isPbarUpdate = 0 := by
  decide

/-- Claim C3 (amended): when the synchronizer returns normally with a
progress bar present, it advances the bar exactly once if both `file` and
`file-name` are non-blank (whether it skipped or transferred), and zero
times if either is blank. -/
theorem c3_pbar_once_unless_blank (env : RecordEnv) (r : Record) (store : Store)
    (b pfx : String)
    (hok : (downloadAndUploadRecording env r store b pfx true).error = none) :
    (downloadAndUploadRecording env r store b pfx true).events.countP
        Event.isPbarUpdate =
      (if (isBlank r.file || isBlank r.fileName) = true then 0 else 1) := by
  have h := sync_master env r store b pfx true _ _ _ _ rfl rfl rfl rfl
  rcases h with ⟨-, h⟩|⟨-, hbl, h⟩|⟨-, hbl, -, -, h⟩|⟨-, hbl, -, -, h⟩|
    ⟨-, hbl, -, -, -, h⟩|⟨-, hbl, -, -, -, h⟩|⟨-, hbl, -, -, -, -, h⟩|
    ⟨-, hbl, -, -, -, h⟩|⟨-, hbl, -, -, -, -, h⟩|⟨-, hbl, -, -, ct, -, -, h⟩|
    ⟨-, hbl, -, -, -, ct, -, -, h⟩|⟨-, hbl, -, -, ct, -, -, h⟩|
    ⟨-, hbl, -, -, -, ct, -, -, h⟩ <;>
  rw [h] at hok ⊢ <;> simp_all [Event.isPbarUpdate]

/-- Witness for the amended C3 at a complete concrete record. -/
theorem c3_witness :
    (downloadAndUploadRecording okEnv demoRecord [] "b" "p/" true).error = none ∧
    (downloadAndUploadRecording okEnv demoRecord [] "b" "p/" true).events.countP
        Event.isPbarUpdate =
      (if (isBlank demoRecord.file || isBlank demoRecord.fileName) = true then 0
       else 1) :=
  ⟨by decide, c3_pbar_once_unless_blank okEnv demoRecord [] "b" "p/" (by decide)⟩

/-- Claim C8: the asset download obtains a response whose status is
non-2xx; `raise_for_status` raises inside the first `try`, whose handler
re-raises, and the `finally` that closes the stream belongs only to the
second `try` — so the obtained response is never closed on this exit
path, contradicting the close-on-every-exit-path obligation. -/
theorem c8_bad_status_leaks_stream :
    (downloadAndUploadRecording badStatusEnv demoRecord [] "b" "p/" true).error
        = some .downloadError ∧
    (downloadAndUploadRecording badStatusEnv demoRecord [] "b" "p/" true).events.contains
        Event.responseObtained = true ∧
    (downloadAndUploadRecording badStatusEnv demoRecord [] "b" "p/" true).events.contains
        Event.responseClosed = false := by
  decide

/-- Claim C10: in every record synchronization, every metadata upload
strictly precedes every asset-transfer step; a metadata-upload failure
aborts before any asset step; and an asset object created by this call
implies the metadata object is present in the resulting store. -/
theorem c10_metadata_before_asset (env : RecordEnv) (r : Record) (store : Store)
    (b pfx : String) (pb : Bool) :
    metadataPrecedesAsset
        (downloadAndUploadRecording env r store b pfx pb).events = true ∧
    ((downloadAndUploadRecording env r store b pfx pb).error =
        some .jsonUploadError →
      (downloadAndUploadRecording env r store b pfx pb).events.all
        (fun e => !e.isAssetStep) = true) ∧
    ((b, audioS3Key pfx (r.fileName.getD "")) ∈
        (downloadAndUploadRecording env r store b pfx pb).store →
     (b, audioS3Key pfx (r.fileName.getD "")) ∉ store →
     (b, jsonS3Key pfx (r.id.getD "")) ∈
        (downloadAndUploadRecording env r store b pfx pb).store) := by
  have h := sync_master env r store b pfx pb _ _ _ _ rfl rfl rfl rfl
  rcases h with ⟨-, h⟩|⟨-, -, h⟩|⟨-, -, hj, ha, h⟩|⟨-, -, hj, -, h⟩|
    ⟨-, -, hj, -, ha, h⟩|⟨-, -, hj, ha, -, h⟩|⟨-, -, hj, -, ha, -, h⟩|
    ⟨-, -, hj, ha, -, h⟩|⟨-, -, hj, -, ha, -, h⟩|⟨-, -, hj, ha, ct, -, -, h⟩|
    ⟨-, -, hj, -, ha, ct, -, -, h⟩|⟨-, -, hj, ha, ct, -, -, h⟩|
    ⟨-, -, hj, -, ha, ct, -, -, h⟩ <;>
  rw [h] <;> cases pb <;>
  simp_all [metadataPrecedesAsset, Event.isAssetStep, Event.isMetaPut,
    checkS3FileExists_iff, checkS3FileExists_false_iff, List.mem_cons]

/-- Witness for C10: at a concrete record against an empty store the
asset object is created and the metadata object is indeed present. -/
theorem c10_witness :
    metadataPrecedesAsset
        (downloadAndUploadRecording okEnv demoRecord [] "b" "p/" true).events = true ∧
    ("b", jsonS3Key "p/" (demoRecord.id.getD "")) ∈
        (downloadAndUploadRecording okEnv demoRecord [] "b" "p/" true).store :=
  ⟨(c10_metadata_before_asset okEnv demoRecord [] "b" "p/" true).1,
   (c10_metadata_before_asset okEnv demoRecord [] "b" "p/" true).2.2
     (by decide) (by decide)⟩


/-- Claim C1: idempotence. If a run completes normally, a second run of
the pipeline (same query, bucket, prefix, start page) against the store
produced by the first run emits no upload call and every existence probe
it performs reports "present" — every record is skipped. -/
theorem c1_second_run_clean (api : Nat → FetchOutcome) (renv : Record → RecordEnv)
    (query : String) (store : Store) (b pfx : String) (startPage : Nat)
    (hok : (fetchAndProcessPages api renv query store b pfx startPage).error = none) :
    ((fetchAndProcessPages api renv query
        (fetchAndProcessPages api renv query store b pfx startPage).store
        b pfx startPage).events.all secondRunGood) = true := by
  cases hap : api 1 with
  | transportError => rw [fetchAndProcessPages] at hok; simp [hap] at hok
  | decodeError => rw [fetchAndProcessPages] at hok; simp [hap] at hok
  | ok payload =>
    by_cases hz : payload.numRecordings.getD 0 = 0
    · simp [fetchAndProcessPages, hap, hz, secondRunGood, Event.isPut, Event.isHeadMiss]
    · have hok2 : (processPages api renv query
          (List.range' startPage (payload.numPages.getD 1 + 1 - startPage))
          store b pfx 0).2.2.2 = none := by
        simpa [fetchAndProcessPages, hap, hz] using hok
      have hfacts := processPages_ok_settles api renv query
        (List.range' startPage (payload.numPages.getD 1 + 1 - startPage))
        store b pfx 0 hok2
      have hrun2 := processPages_settled api renv query
        (List.range' startPage (payload.numPages.getD 1 + 1 - startPage))
        (processPages api renv query
          (List.range' startPage (payload.numPages.getD 1 + 1 - startPage))
          store b pfx 0).1 b pfx 0 hfacts
      have hstore : (fetchAndProcessPages api renv query store b pfx startPage).store
          = (processPages api renv query
              (List.range' startPage (payload.numPages.getD 1 + 1 - startPage))
              store b pfx 0).1 := by
        simp [fetchAndProcessPages, hap, hz]
      rw [hstore]
      simp only [fetchAndProcessPages, hap, if_neg hz, List.cons_append,
        List.nil_append, List.all_cons, List.all_append, Bool.and_eq_true]
      exact ⟨rfl, hrun2.2.2, rfl, rfl⟩

/-- Witness for C1: a concrete completed first run, after which the
second run emits no upload and only successful probes. -/
theorem c1_witness :
    (fetchAndProcessPages demoApi allOk "q" [] "b" "p/" 1).error = none ∧
    ((fetchAndProcessPages demoApi allOk "q"
        (fetchAndProcessPages demoApi allOk "q" [] "b" "p/" 1).store
        "b" "p/" 1).events.all secondRunGood) = true :=
  ⟨by decide, c1_second_run_clean demoApi allOk "q" [] "b" "p/" 1 (by decide)⟩

/-- Claim C4 (counterexample): an API answering every request — including
the very first page fetched — with the bare embedded-error payload
`{error: {code: "E1", message: "bad query"}}` does not abort the run with
an API error: the initial probe never consults the error object, reads
`numRecordings` as 0 and returns cleanly (no error, no upload). -/
theorem c4_counterexample :
    (fetchAndProcessPages errorApi allOk "q" [] "b" "p/" 1).error = none ∧
    (fetchAndProcessPages errorApi allOk "q" [] "b" "p/" 1).events.all
      (fun e => !e.isPut) = true := by
  decide

/-- Claim C4 (amended): the embedded-error abort applies to every payload
fetched by the walk loop.  Whenever the walk reaches a page — first or
mid-walk, i.e. after any clean prefix of walked pages — whose payload
carries `{error: {code, message}}`, the run aborts with exactly that code
and message; the error page's records are never visited, the store keeps
exactly the clean prefix's objects (unchanged when the error page is the
first walked page), and the only events after the clean prefix are the
waited fetch of the error page and the final summary — so no upload is
attempted for the error page or any later page. -/
theorem c4_walk_page_error_aborts (api : Nat → FetchOutcome) (renv : Record → RecordEnv)
    (query : String) (store : Store) (b pfx : String) (startPage : Nat)
    (p1 p2 : Payload) (c m : String) (done : List Nat) (pg : Nat) (rest : List Nat)
    (h1 : api 1 = .ok p1) (hz : p1.numRecordings.getD 0 ≠ 0)
    (hsplit : List.range' startPage (p1.numPages.getD 1 + 1 - startPage)
        = done ++ pg :: rest)
    (hclean : (processPages api renv query done store b pfx 0).2.2.2 = none)
    (h2 : api pg = .ok p2) (he : p2.error = some ⟨c, m⟩) :
    (fetchAndProcessPages api renv query store b pfx startPage).error
        = some (.apiError c m) ∧
    (fetchAndProcessPages api renv query store b pfx startPage).store
        = (processPages api renv query done store b pfx 0).1 ∧
    (fetchAndProcessPages api renv query store b pfx startPage).events
        = Event.fetchPage query 1 ::
          ((processPages api renv query done store b pfx 0).2.1 ++
           [Event.wait, Event.fetchPage query pg,
            Event.summary (processPages api renv query done store b pfx 0).2.2.1
              (p1.numRecordings.getD 0)]) := by
  have happ := processPages_append api renv query done (pg :: rest) store b pfx 0 hclean
  refine ⟨?_, ?_, ?_⟩ <;>
    simp [fetchAndProcessPages, h1, hz, hsplit, happ, processPages, h2, he]

/-- Witness for the amended C4: a mid-walk error page.  Page 1 is walked
cleanly (uploading one record's two objects), then page 2 carries the
error payload: the run aborts with its code and message right after
fetching it. -/
theorem c4_witness :
    (fetchAndProcessPages c4MidApi allOk "q" [] "b" "p/" 1).error
        = some (.apiError "E1" "bad query") ∧
    (fetchAndProcessPages c4MidApi allOk "q" [] "b" "p/" 1).store
        = (processPages c4MidApi allOk "q" [1] [] "b" "p/" 0).1 ∧
    (fetchAndProcessPages c4MidApi allOk "q" [] "b" "p/" 1).events
        = Event.fetchPage "q" 1 ::
          ((processPages c4MidApi allOk "q" [1] [] "b" "p/" 0).2.1 ++
           [Event.wait, Event.fetchPage "q" 2,
            Event.summary (processPages c4MidApi allOk "q" [1] [] "b" "p/" 0).2.2.1
              ((Payload.mk (some 2) (some 2) [demoRecord] none).numRecordings.getD 0)]) :=
  c4_walk_page_error_aborts c4MidApi allOk "q" [] "b" "p/" 1
    ⟨some 2, some 2, [demoRecord], none⟩ ⟨none, none, [], some ⟨"E1", "bad query"⟩⟩
    "E1" "bad query" [1] 2 [] (by decide) (by decide) (by decide) (by decide)
    (by decide) (by decide)

/-- Claim C5 (counterexample): the metadata key is a literal
concatenation with no separator normalization, so it is not independent
of whether the prefix ends in a separator: prefixes `"a"` and `"a/"`
give different metadata keys for the same id. -/
theorem c5_counterexample : jsonS3Key "a" "1" ≠ jsonS3Key "a/" "1" := by
  decide

/-- Claim C5 (amended): the metadata key is the literal concatenation
`prefix ++ id ++ ".json"`, and for every prefix whatsoever it changes
when a trailing separator is appended — it is never independent of the
trailing separator.  The asset key contains exactly one separator between
a non-empty prefix and the filename: a prefix not ending in a separator
has one inserted, and appending a trailing separator to it leaves the
asset key unchanged; a prefix already ending in a separator is used
as-is; the empty prefix yields the bare filename.  Both keys are
functions of (prefix, id, filename). -/
theorem c5_key_derivation (pfx rid fn : String) :
    jsonS3Key pfx rid = pfx ++ rid ++ ".json" ∧
    jsonS3Key (pfx ++ "/") rid ≠ jsonS3Key pfx rid ∧
    (pyTruthy pfx = true → endsWithSlash pfx = false →
      audioS3Key pfx fn = pfx ++ "/" ++ fn ∧
      audioS3Key (pfx ++ "/") fn = pfx ++ "/" ++ fn) ∧
    (endsWithSlash pfx = true → audioS3Key pfx fn = pfx ++ fn) ∧
    audioS3Key "" fn = fn := by
  have hsd : ("/" : String).data = ['/'] := rfl
  refine ⟨rfl, ?_, ?_, ?_, ?_⟩
  · intro heq
    have hlen := congrArg (fun s => s.data.length) heq
    have h1 : ("/" : String).data.length = 1 := rfl
    simp only [jsonS3Key, String.data_append, List.length_append, h1] at hlen
    omega
  · intro ht he
    have h1 : endsWithSlash (pfx ++ "/") = true := by
      rw [endsWithSlash, String.data_append, hsd, List.getLast?_concat]
      rfl
    have h2 : pyTruthy (pfx ++ "/") = true := by
      simp [pyTruthy, hsd]
    constructor
    · simp [audioS3Key, ht, he]
    · simp [audioS3Key, h1, h2]
  · intro hsl
    have ht : pyTruthy pfx = true := by
      unfold pyTruthy
      cases hd : pfx.data with
      | nil =>
        rw [endsWithSlash, hd] at hsl
        exact absurd hsl (by decide)
      | cons a l => rfl
    simp [audioS3Key, hsl, ht]
  · have e1 : endsWithSlash "" = false := rfl
    have e2 : pyTruthy "" = false := rfl
    simp [audioS3Key, e1, e2]

/-- Witness for the amended C5 at concrete prefixes and a filename:
separator insertion, trailing-separator invariance of the asset key, the
as-is slash-ending case, and the metadata-key separator dependence. -/
theorem c5_witness :
    audioS3Key "a" "f.mp3" = "a" ++ "/" ++ "f.mp3" ∧
    audioS3Key ("a" ++ "/") "f.mp3" = "a" ++ "/" ++ "f.mp3" ∧
    audioS3Key "a/" "f.mp3" = "a/" ++ "f.mp3" ∧
    jsonS3Key ("a" ++ "/") "1" ≠ jsonS3Key "a" "1" :=
  ⟨((c5_key_derivation "a" "1" "f.mp3").2.2.1 (by decide) (by decide)).1,
   ((c5_key_derivation "a" "1" "f.mp3").2.2.1 (by decide) (by decide)).2,
   (c5_key_derivation "a/" "1" "f.mp3").2.2.2.1 (by decide),
   (c5_key_derivation "a" "1" "f.mp3").2.1⟩

/-- Claim C6 (counterexample): a run in which some outbound call is not
immediately preceded by the rate-limit wait: the very first event of
every run is the unawaited initial probe fetch of page 1. -/
theorem c6_counterexample :
    waitDiscipline (fetchAndProcessPages demoApi allOk "q" [] "b" "p/" 1).events
      = false := by
  decide

/-- Claim C6 (amended): every run's trace is the unawaited initial probe
fetch of page 1 followed by a tail in which every outbound call — every
walked page fetch and every asset download — is immediately preceded by
a wait. -/
theorem c6_wait_after_probe (api : Nat → FetchOutcome) (renv : Record → RecordEnv)
    (query : String) (store : Store) (b pfx : String) (startPage : Nat) :
    ∃ tail, (fetchAndProcessPages api renv query store b pfx startPage).events
        = Event.fetchPage query 1 :: tail ∧
      chainWait (Event.fetchPage query 1) tail = true := by
  cases hap : api 1 with
  | transportError => exact ⟨[], by simp [fetchAndProcessPages, hap], rfl⟩
  | decodeError => exact ⟨[], by simp [fetchAndProcessPages, hap], rfl⟩
  | ok payload =>
    by_cases hz : payload.numRecordings.getD 0 = 0
    · exact ⟨[], by simp [fetchAndProcessPages, hap, hz], rfl⟩
    · refine ⟨(processPages api renv query
          (List.range' startPage (payload.numPages.getD 1 + 1 - startPage))
          store b pfx 0).2.1 ++
          [Event.summary (processPages api renv query
            (List.range' startPage (payload.numPages.getD 1 + 1 - startPage))
            store b pfx 0).2.2.1 (payload.numRecordings.getD 0)], ?_, ?_⟩
      · simp [fetchAndProcessPages, hap, hz]
      · rw [chainWait_append, processPages_chainAny]
        simp [chainWait, Event.isOutbound]

/-- Claim C7 (counterexample): with the default start page 1, page 1 is
fetched twice in a single run — once by the initial probe and once by the
walk loop — contradicting "no page number is ever fetched more than
once". -/
theorem c7_counterexample :
    (fetchedPages (fetchAndProcessPages demoApi allOk "q" [] "b" "p/" 1).events).count 1
      = 2 := by
  decide

/-- Claim C7 (amended): a run that completes normally fetches exactly the
page sequence `1 :: [startPage … totalPages]` (just `[1]` when the
reported record count is zero): the probe always re-fetches page 1, each
walked page is fetched exactly once, and page 1 is fetched twice when
`startPage = 1`. -/
theorem c7_fetch_sequence (api : Nat → FetchOutcome) (renv : Record → RecordEnv)
    (query : String) (store : Store) (b pfx : String) (startPage : Nat)
    (payload : Payload) (h1 : api 1 = .ok payload)
    (hok : (fetchAndProcessPages api renv query store b pfx startPage).error = none) :
    fetchedPages (fetchAndProcessPages api renv query store b pfx startPage).events
      = (if payload.numRecordings.getD 0 = 0 then [1]
         else 1 :: List.range' startPage (payload.numPages.getD 1 + 1 - startPage)) := by
  by_cases hz : payload.numRecordings.getD 0 = 0
  · simp [fetchAndProcessPages, h1, hz, fetchedPages, Event.pageOf]
  · have hok2 : (processPages api renv query
        (List.range' startPage (payload.numPages.getD 1 + 1 - startPage))
        store b pfx 0).2.2.2 = none := by
      simpa [fetchAndProcessPages, h1, hz] using hok
    simp [fetchAndProcessPages, h1, hz, fetchedPages, List.filterMap_append,
      Event.pageOf, processPages_fetched api renv query _ store b pfx 0 hok2]

/-- Witness for the amended C7 at a concrete one-page run. -/
theorem c7_witness :
    fetchedPages (fetchAndProcessPages demoApi allOk "q" [] "b" "p/" 1).events
      = (if (Payload.mk (some 1) (some 1) [demoRecord] none).numRecordings.getD 0 = 0
         then [1]
         else 1 :: List.range' 1
           ((Payload.mk (some 1) (some 1) [demoRecord] none).numPages.getD 1 + 1 - 1)) :=
  c7_fetch_sequence demoApi allOk "q" [] "b" "p/" 1
    ⟨some 1, some 1, [demoRecord], none⟩ (by decide) (by decide)

/-- Claim C9 (counterexample): a run aborted during the initial page
fetch emits no final summary at all — the progress bar does not exist
yet, so the cleanup prints nothing — contradicting "a final summary is
always emitted however the run ends". -/
theorem c9_counterexample :
    (fetchAndProcessPages failApi allOk "q" [] "b" "p/" 1).error
        = some (.fetchError 1) ∧
    (fetchAndProcessPages failApi allOk "q" [] "b" "p/" 1).events.all
      (fun e => !e.isSummary) = true := by
  decide

/-- Claim C9 (amended): once the initial probe succeeds with a non-zero
record count (so the progress bar is created), every run — normal or
aborted mid-walk — ends with the final summary as its last event,
reporting the walk's processed-record counter against the reported
total; no other event of the run is a summary, and on a walk that
completed normally the reported counter equals the total number of
records of all walked pages.  When the probe reports zero recordings the
run returns cleanly with no summary (and no progress bar). -/
theorem c9_summary_iff_bar (api : Nat → FetchOutcome) (renv : Record → RecordEnv)
    (query : String) (store : Store) (b pfx : String) (startPage : Nat)
    (payload : Payload) (h1 : api 1 = .ok payload) :
    (payload.numRecordings.getD 0 ≠ 0 →
      (fetchAndProcessPages api renv query store b pfx startPage).events
        = Event.fetchPage query 1 ::
          ((processPages api renv query
              (List.range' startPage (payload.numPages.getD 1 + 1 - startPage))
              store b pfx 0).2.1 ++
            [Event.summary (processPages api renv query
                (List.range' startPage (payload.numPages.getD 1 + 1 - startPage))
                store b pfx 0).2.2.1 (payload.numRecordings.getD 0)]) ∧
      (processPages api renv query
          (List.range' startPage (payload.numPages.getD 1 + 1 - startPage))
          store b pfx 0).2.1.all (fun e => !e.isSummary) = true ∧
      ((processPages api renv query
          (List.range' startPage (payload.numPages.getD 1 + 1 - startPage))
          store b pfx 0).2.2.2 = none →
        (processPages api renv query
            (List.range' startPage (payload.numPages.getD 1 + 1 - startPage))
            store b pfx 0).2.2.1
          = ((List.range' startPage (payload.numPages.getD 1 + 1 - startPage)).map
              (pageRecordCount api)).sum)) ∧
    (payload.numRecordings.getD 0 = 0 →
      (fetchAndProcessPages api renv query store b pfx startPage).events
        = [Event.fetchPage query 1] ∧
      (fetchAndProcessPages api renv query store b pfx startPage).error = none) := by
  constructor
  · intro hz
    refine ⟨?_, processPages_no_summary api renv query _ store b pfx 0, ?_⟩
    · simp [fetchAndProcessPages, h1, hz]
    · intro hw
      simpa using processPages_count api renv query _ store b pfx 0 hw
  · intro hz
    constructor <;> simp [fetchAndProcessPages, h1, hz]

/-- Witness for the amended C9: a two-page run whose second page fails at
the transport level still ends with the summary of its processed
counter against the reported total. -/
theorem c9_witness :
    (fetchAndProcessPages c9Api allOk "q" [] "b" "p/" 1).events
      = Event.fetchPage "q" 1 ::
        ((processPages c9Api allOk "q"
            (List.range' 1
              ((Payload.mk (some 2) (some 2) [demoRecord] none).numPages.getD 1 + 1 - 1))
            [] "b" "p/" 0).2.1 ++
          [Event.summary (processPages c9Api allOk "q"
              (List.range' 1
                ((Payload.mk (some 2) (some 2) [demoRecord] none).numPages.getD 1 + 1 - 1))
              [] "b" "p/" 0).2.2.1
            ((Payload.mk (some 2) (some 2) [demoRecord] none).numRecordings.getD 0)]) ∧
    (processPages c9Api allOk "q"
        (List.range' 1
          ((Payload.mk (some 2) (some 2) [demoRecord] none).numPages.getD 1 + 1 - 1))
        [] "b" "p/" 0).2.1.all (fun e => !e.isSummary) = true ∧
    ((processPages c9Api allOk "q"
        (List.range' 1
          ((Payload.mk (some 2) (some 2) [demoRecord] none).numPages.getD 1 + 1 - 1))
        [] "b" "p/" 0).2.2.2 = none →
      (processPages c9Api allOk "q"
          (List.range' 1
            ((Payload.mk (some 2) (some 2) [demoRecord] none).numPages.getD 1 + 1 - 1))
          [] "b" "p/" 0).2.2.1
        = ((List.range' 1
            ((Payload.mk (some 2) (some 2) [demoRecord] none).numPages.getD 1 + 1 - 1)).map
            (pageRecordCount c9Api)).sum) :=
  (c9_summary_iff_bar c9Api allOk "q" [] "b" "p/" 1
    ⟨some 2, some 2, [demoRecord], none⟩ (by decide)).1 (by decide)

end XC
